import Mathlib

/-!
# Verification of the Eradiate discrete-canopy subsystem

Shallow embedding of `src/eradiate/scenes/biosphere/_discrete.py`:
leaf-cloud samplers, collision-avoidance placement, cuboid parameter
resolution, leaf-cloud translation, file loaders and canopy padding.

Conventions:
* Python floats are modelled as exact rationals (`ℚ`); the claims under
  study are algebraic or structural, and an exact-arithmetic model is the
  standard shallow embedding for them.  `np.pi` is the IEEE-754 double
  closest to π, an exact rational, reproduced below.
* Trigonometric code (`np.sin`, `np.cos`, powers of random draws) is
  modelled over `ℝ`.
* Arrays produced by `numpy` are modelled as Lean lists; a pseudo-random
  generator is an arbitrary stream `ℕ → ℚ × ℚ × ℚ` of draw triples (each
  `rng.random(3)` call consumes one triple, in program order).
* Fallible code returns `Except`/`Option`.
-/

/-- A 3-vector of rationals, modelling one row of an `(n, 3)` numpy array. -/
structure Vec3 where
  x : ℚ
  y : ℚ
  z : ℚ
deriving DecidableEq, Repr

/-- Componentwise vector addition (numpy row addition). -/
def Vec3.add (a b : Vec3) : Vec3 :=
  ⟨a.x + b.x, a.y + b.y, a.z + b.z⟩

/-- The IEEE-754 double closest to π (the value of `np.pi`), as an exact
rational: `884279719003555 / 2^48`. -/
def npPi : ℚ := 884279719003555 / 281474976710656

/-- Python `int()` applied to a float: truncation toward zero. -/
def pyInt (q : ℚ) : ℤ :=
  if 0 ≤ q then ⌊q⌋ else -⌊-q⌋

/-!
## Cuboid parameter resolution (`CuboidLeafCloudParams`)

Each property of the Python class resolves a missing field from the
others.  The formulas below are transcribed from the `n_leaves`, `lai`,
`l_horizontal` and `l_vertical` properties of `CuboidLeafCloudParams`
(source lines 344–382).  The `leaf_radius` property uses a square root
and is not needed by any claim.
-/

/-- Property `CuboidLeafCloudParams.n_leaves`:
`int(lai * (l_horizontal / leaf_radius) ** 2 / np.pi)`. -/
def cuboidNLeaves (lai leaf_radius l_horizontal : ℚ) : ℤ :=
  pyInt (lai * (l_horizontal / leaf_radius) ^ 2 / npPi)

/-- Property `CuboidLeafCloudParams.lai`:
`np.pi * (leaf_radius / l_horizontal) ** 2 * n_leaves`. -/
def cuboidLai (leaf_radius l_horizontal : ℚ) (n_leaves : ℤ) : ℚ :=
  npPi * (leaf_radius / l_horizontal) ^ 2 * (n_leaves : ℚ)

/-- Property `CuboidLeafCloudParams.l_horizontal`, exactly as written in
the source (line 371): `np.pi * leaf_radius ** 2 * n_leaves / lai`.
Note the absence of a square root: the expression has the dimension of an
area, not a length. -/
def cuboidLHorizontal (leaf_radius : ℚ) (n_leaves : ℤ) (lai : ℚ) : ℚ :=
  npPi * leaf_radius ^ 2 * (n_leaves : ℚ) / lai

/-- Property `CuboidLeafCloudParams.l_vertical`:
`lai * hdo ** 3 / (np.pi * leaf_radius ** 2 * hvr)`. -/
def cuboidLVertical (lai hdo leaf_radius hvr : ℚ) : ℚ :=
  lai * hdo ^ 3 / (npPi * leaf_radius ^ 2 * hvr)

/-!
## Collision-avoidance placement
(`_leaf_cloud_positions_cuboid_avoid_overlap`, source lines 53–99)

The bounding-volume tree of the external `aabbtree` library is modelled
as the list of boxes inserted so far; `AABBTree.does_overlap` then asks
whether the query box overlaps any box of that list.
-/

/-- An axis-aligned bounding box, as built at source lines 78–84. -/
structure AABB where
  xlo : ℚ
  xhi : ℚ
  ylo : ℚ
  yhi : ℚ
  zlo : ℚ
  zhi : ℚ
deriving DecidableEq, Repr

/-- Library test `aabbtree.AABB.overlaps` (default `closed=False`): true
iff the boxes share positive extent along every axis. -/
def AABB.overlaps (a b : AABB) : Bool :=
  (a.xlo < b.xhi && b.xlo < a.xhi) &&
  (a.ylo < b.yhi && b.ylo < a.yhi) &&
  (a.zlo < b.zhi && b.zlo < a.zhi)

/-- Library test `AABBTree.does_overlap`: the tree is the list of inserted
boxes. -/
def treeDoesOverlap (tree : List AABB) (b : AABB) : Bool :=
  tree.any (fun a => a.overlaps b)

/-- One candidate position, from one `rng.random(3)` triple (source lines
72–77): `[rand[0]*l_h - 0.5*l_h, rand[1]*l_h - 0.5*l_h, rand[2]*l_v]`. -/
def posCandidate (l_horizontal l_vertical : ℚ) (rand : ℚ × ℚ × ℚ) : Vec3 :=
  ⟨rand.1 * l_horizontal - 1/2 * l_horizontal,
   rand.2.1 * l_horizontal - 1/2 * l_horizontal,
   rand.2.2 * l_vertical⟩

/-- The radius-inflated bounding box of a leaf position (source lines
78–84). -/
def leafAABB (leaf_radius : ℚ) (p : Vec3) : AABB :=
  ⟨p.x - leaf_radius, p.x + leaf_radius,
   p.y - leaf_radius, p.y + leaf_radius,
   p.z - leaf_radius, p.z + leaf_radius⟩

/-- Inner `for j in range(n_attempts)` loop for one leaf (source lines
71–93): draw a candidate; if this is leaf index 0 (`isFirst`), accept it
immediately; otherwise accept it iff its inflated box does not overlap the
tree, and retry on the next draw while attempts remain.  Returns the
accepted position together with the next unconsumed draw index, or `none`
when all attempts are exhausted (the `for`–`else` branch). -/
def tryPlaceLeaf (l_horizontal l_vertical leaf_radius : ℚ) (tree : List AABB)
    (rng : ℕ → ℚ × ℚ × ℚ) (idx : ℕ) (isFirst : Bool) :
    ℕ → Option (Vec3 × ℕ)
  | 0 => none
  | fuel + 1 =>
    let pos := posCandidate l_horizontal l_vertical (rng idx)
    let box := leafAABB leaf_radius pos
    if isFirst then some (pos, idx + 1)
    else if treeDoesOverlap tree box then
      tryPlaceLeaf l_horizontal l_vertical leaf_radius tree rng (idx + 1) isFirst fuel
    else some (pos, idx + 1)

/-- Outer `for i in range(n_leaves)` loop (source lines 70–97): place each
remaining leaf in turn, threading the tree of placed boxes and the draw
index; a leaf whose attempts are exhausted aborts the whole run with the
source's error message. -/
def placeLoop (l_horizontal l_vertical leaf_radius : ℚ) (n_attempts : ℕ)
    (rng : ℕ → ℚ × ℚ × ℚ) :
    (i remaining : ℕ) → List AABB → ℕ → Except String (List Vec3)
  | _, 0, _, _ => .ok []
  | i, remaining + 1, tree, idx =>
    match tryPlaceLeaf l_horizontal l_vertical leaf_radius tree rng idx
        (i == 0) n_attempts with
    | none =>
      .error "unable to place all leaves: the specified canopy might be too dense"
    | some (pos, idxNext) =>
      (placeLoop l_horizontal l_vertical leaf_radius n_attempts rng (i + 1)
          remaining (tree ++ [leafAABB leaf_radius pos]) idxNext).map
        (fun ps => pos :: ps)

/-- Source function `_leaf_cloud_positions_cuboid_avoid_overlap`: run the
placement loop from the empty tree. -/
def leafCloudPositionsCuboidAvoidOverlap (n_leaves : ℕ)
    (l_horizontal l_vertical leaf_radius : ℚ) (n_attempts : ℕ)
    (rng : ℕ → ℚ × ℚ × ℚ) : Except String (List Vec3) :=
  placeLoop l_horizontal l_vertical leaf_radius n_attempts rng 0 n_leaves [] 0

/-- Non-overlap between two boxes, as a `Prop`. -/
def NoOverlap (a b : AABB) : Prop := a.overlaps b = false

/-- State of the outer placement loop between two leaves: next leaf index,
tree of already placed boxes, next draw index. -/
structure PlaceState where
  leafIdx : ℕ
  tree : List AABB
  drawIdx : ℕ

/-- Advance the outer placement loop by one leaf from an arbitrary state. -/
def placeStep (l_horizontal l_vertical leaf_radius : ℚ) (n_attempts : ℕ)
    (rng : ℕ → ℚ × ℚ × ℚ) (s : PlaceState) : Option PlaceState :=
  (tryPlaceLeaf l_horizontal l_vertical leaf_radius s.tree rng s.drawIdx
      (s.leafIdx == 0) n_attempts).map
    (fun r => ⟨s.leafIdx + 1, s.tree ++ [leafAABB leaf_radius r.1], r.2⟩)

/-- Iterate `placeStep` `k` times: the loop state reached once the first
`k` leaves have been placed. -/
def placeSteps (l_horizontal l_vertical leaf_radius : ℚ) (n_attempts : ℕ)
    (rng : ℕ → ℚ × ℚ × ℚ) : ℕ → PlaceState → Option PlaceState
  | 0, s => some s
  | k + 1, s =>
    (placeStep l_horizontal l_vertical leaf_radius n_attempts rng s).bind
      (placeSteps l_horizontal l_vertical leaf_radius n_attempts rng k)

/-!
## Plain samplers, orientations, radii
(`_leaf_cloud_positions_*`, `_leaf_cloud_orientations`, `_leaf_cloud_radii`)
-/

/-- Source function `_leaf_cloud_positions_cuboid` (lines 38–50): one
uniform candidate per leaf, no collision checks. -/
def leafCloudPositionsCuboid (n_leaves : ℕ) (l_horizontal l_vertical : ℚ)
    (rng : ℕ → ℚ × ℚ × ℚ) : List Vec3 :=
  (List.range n_leaves).map (fun i => posCandidate l_horizontal l_vertical (rng i))

/-- A Python numeric value: an `int` or a `float`.  Quantities of the
`pint` unit library are modelled by their float magnitude.  (With `pint`'s
strict `ureg.wraps` decorator, passing a plain `int` where a unit-bearing
argument is expected fails with a `ValueError` even before the function
body runs; either way the mismatched call modelled below fails.) -/
inductive PyNum where
  | int (n : ℤ)
  | float (q : ℚ)
deriving DecidableEq, Repr

/-- Allocation `np.empty((n, 3))`: the row count must be a Python `int`
(`np.empty((2.0, 3))` raises `TypeError: 'float' object cannot be
interpreted as an integer`) and non-negative. -/
def npEmptyRows : PyNum → Option ℕ
  | .int n => if 0 ≤ n then some n.toNat else none
  | .float _ => none

/-- Conversion `float(x)` applied to a Python number (source line 106). -/
def pyFloat : PyNum → ℚ
  | .int n => (n : ℚ)
  | .float q => q

/-- One row of the sphere sampler (source lines 110–119):
`theta = rand[0]*pi`, `phi = rand[1]*2*pi`, `r = rand[2]*radius`, then the
spherical-to-cartesian conversion. -/
noncomputable def sphereRow (radius : ℚ) (rand : ℚ × ℚ × ℚ) : ℝ × ℝ × ℝ :=
  ((rand.2.2 : ℝ) * (radius : ℝ) * Real.sin ((rand.1 : ℝ) * Real.pi) *
      Real.cos ((rand.2.1 : ℝ) * 2 * Real.pi),
   (rand.2.2 : ℝ) * (radius : ℝ) * Real.sin ((rand.1 : ℝ) * Real.pi) *
      Real.sin ((rand.2.1 : ℝ) * 2 * Real.pi),
   (rand.2.2 : ℝ) * (radius : ℝ) * Real.cos ((rand.1 : ℝ) * Real.pi))

/-- Source function `_leaf_cloud_positions_sphere` (lines 102–121), with
its declared parameter order `(n_leaves, radius, rng)`: allocate
`np.empty((n_leaves, 3))` (which requires `n_leaves` to be an `int`),
convert `radius` with `float(...)`, and fill one row per leaf. -/
noncomputable def leafCloudPositionsSphere (n_leaves radius : PyNum)
    (rng : ℕ → ℚ × ℚ × ℚ) : Option (List (ℝ × ℝ × ℝ)) :=
  (npEmptyRows n_leaves).map
    (fun n => (List.range n).map (fun i => sphereRow (pyFloat radius) (rng i)))

/-- Generator `LeafCloud.sphere` (source lines 735–771), position stage
only, exactly as the source calls it at lines 755–757:
`_leaf_cloud_positions_sphere(params.radius, params.n_leaves, rng)` — the
resolved radius (a float quantity) is passed where the sampler expects the
leaf count, and the leaf count (an int) where it expects the radius. -/
noncomputable def leafCloudSphereLeafPositions (n_leaves : ℤ) (radius : ℚ)
    (rng : ℕ → ℚ × ℚ × ℚ) : Option (List (ℝ × ℝ × ℝ)) :=
  leafCloudPositionsSphere (.float radius) (.int n_leaves) rng

/-- One row of the cylinder sampler (source lines 124–138):
`phi = rand[0]*2*pi`, `r = rand[1]*radius`, `z = rand[2]*l_vertical`. -/
noncomputable def cylinderRow (radius l_vertical : ℚ) (rand : ℚ × ℚ × ℚ) :
    ℝ × ℝ × ℝ :=
  ((rand.2.1 : ℝ) * (radius : ℝ) * Real.cos ((rand.1 : ℝ) * 2 * Real.pi),
   (rand.2.1 : ℝ) * (radius : ℝ) * Real.sin ((rand.1 : ℝ) * 2 * Real.pi),
   (rand.2.2 : ℝ) * (l_vertical : ℝ))

/-- Source function `_leaf_cloud_positions_cylinder`. -/
noncomputable def leafCloudPositionsCylinder (n_leaves : ℕ)
    (radius l_vertical : ℚ) (rng : ℕ → ℚ × ℚ × ℚ) : List (ℝ × ℝ × ℝ) :=
  (List.range n_leaves).map (fun i => cylinderRow radius l_vertical (rng i))

/-- One row of the cone sampler (source lines 141–157):
`h = l_vertical * rand[0]**(1/3)`, `r = radius/l_vertical*h*sqrt(rand[1])`,
`phi = rand[2]*2*pi`; the point is `[r cos phi, r sin phi, l_vertical - h]`. -/
noncomputable def coneRow (radius l_vertical : ℚ) (rand : ℚ × ℚ × ℚ) :
    ℝ × ℝ × ℝ :=
  ((radius : ℝ) / (l_vertical : ℝ) *
      ((l_vertical : ℝ) * (rand.1 : ℝ) ^ ((1 : ℝ) / 3)) *
      Real.sqrt (rand.2.1 : ℝ) * Real.cos ((rand.2.2 : ℝ) * 2 * Real.pi),
   (radius : ℝ) / (l_vertical : ℝ) *
      ((l_vertical : ℝ) * (rand.1 : ℝ) ^ ((1 : ℝ) / 3)) *
      Real.sqrt (rand.2.1 : ℝ) * Real.sin ((rand.2.2 : ℝ) * 2 * Real.pi),
   (l_vertical : ℝ) - (l_vertical : ℝ) * (rand.1 : ℝ) ^ ((1 : ℝ) / 3))

/-- Source function `_leaf_cloud_positions_cone`. -/
noncomputable def leafCloudPositionsCone (n_leaves : ℕ)
    (radius l_vertical : ℚ) (rng : ℕ → ℚ × ℚ × ℚ) : List (ℝ × ℝ × ℝ) :=
  (List.range n_leaves).map (fun i => coneRow radius l_vertical (rng i))

/-- One row of `_leaf_cloud_orientations` (source lines 160–174):
`[sin(theta)*cos(phi), sin(theta)*sin(phi), cos(theta)]`.  In the source
`theta` is `np.rad2deg(_inversebeta(mu, nu, rng))` and `phi` is
`rng.random() * 360.0`; both are fed to `np.sin`/`np.cos` as they are, so
here they are arbitrary reals. -/
noncomputable def orientationRow (theta phi : ℝ) : ℝ × ℝ × ℝ :=
  (Real.sin theta * Real.cos phi, Real.sin theta * Real.sin phi, Real.cos theta)

/-- Source function `_leaf_cloud_orientations`: one row per leaf, with the
drawn inclination and azimuth abstracted as streams. -/
noncomputable def leafCloudOrientations (n_leaves : ℕ) (thetas phis : ℕ → ℝ) :
    List (ℝ × ℝ × ℝ) :=
  (List.range n_leaves).map (fun i => orientationRow (thetas i) (phis i))

/-- Source function `_leaf_cloud_radii` (lines 177–180):
`np.full((n_leaves,), leaf_radius)`. -/
def leafCloudRadii (n_leaves : ℕ) (leaf_radius : ℚ) : List ℚ :=
  List.replicate n_leaves leaf_radius

/-!
## The LeafCloud entity and translation
-/

/-- Container `LeafCloud` (source lines 530–661): positions, orientation
normals, radii and the two scalar optical properties. -/
structure LeafCloud where
  id : String
  leaf_positions : List Vec3
  leaf_orientations : List Vec3
  leaf_radii : List ℚ
  leaf_reflectance : ℚ
  leaf_transmittance : ℚ
deriving DecidableEq, Repr

/-- Method `LeafCloud.translated` (source lines 1030–1053).  The argument
is either a 3-vector (`xyz.ndim <= 1`, reshaped to `(1, 3)` and broadcast
over every row) or an `(M, 3)` array, whose shape must match
`leaf_positions` exactly, else a `ValueError` is raised.  On success
`attr.evolve` builds a new object differing only in `leaf_positions`. -/
def LeafCloud.translated (lc : LeafCloud) (xyz : Vec3 ⊕ List Vec3) :
    Except String LeafCloud :=
  match xyz with
  | .inl v =>
    .ok { lc with leaf_positions := lc.leaf_positions.map (fun p => p.add v) }
  | .inr vs =>
    if vs.length = lc.leaf_positions.length then
      .ok { lc with leaf_positions := List.zipWith Vec3.add lc.leaf_positions vs }
    else
      .error "shapes xyz and self.leaf_positions do not match"

/-!
## File loaders

A definition file is a list of lines; a line is a list of whitespace
tokens; a token either parses as a float or does not.
-/

/-- A whitespace-separated token of a definition file. -/
inductive PyTok where
  | num (q : ℚ)
  | bad
deriving DecidableEq, Repr

/-- Errors a loader can raise. -/
inductive LoadError where
  /-- Error from `float(x)` inside `LeafCloud.from_file`: the raw
  `ValueError` names the offending token only — no line number. -/
  | floatValueError
  /-- Error from `values[0]` on an empty token list (`IndexError`) — no
  line number. -/
  | indexError
  /-- Wrapped error of `InstancedCanopyElement.from_file`, which names the
  offending 1-based line number. -/
  | lineError (lineNo : ℕ)
deriving DecidableEq, Repr

/-- One line of `LeafCloud.from_file` (source lines 907–911):
`values = [float(x) for x in line.split()]`, then `values[0]`,
`values[1:4]`, `values[4:7]`.  Python slices never raise, so a wrong token
count — other than an empty line — raises nothing at parse time. -/
def leafCloudParseLine (toks : List PyTok) :
    Except LoadError (ℚ × List ℚ × List ℚ) := do
  let values ← toks.mapM (fun t =>
    match t with
    | .num q => Except.ok q
    | .bad => Except.error LoadError.floatValueError)
  match values with
  | [] => Except.error LoadError.indexError
  | v0 :: rest => Except.ok (v0, rest.take 3, (values.drop 4).take 3)

/-- Loader `LeafCloud.from_file`, parsing stage (source lines 903–915):
parse the lines in order; the first failure propagates as-is. -/
def leafCloudFromFile (lines : List (List PyTok)) :
    Except LoadError (List (ℚ × List ℚ × List ℚ)) :=
  lines.mapM leafCloudParseLine

/-- Numeric value of a token, when it has one. -/
def pyTokValue : PyTok → Option ℚ
  | .num q => some q
  | .bad => none

/-- One line of `InstancedCanopyElement.from_file` (source lines
1331–1347): `np.array(line.split(), dtype=float)` failures and a token
count other than 3 are both wrapped in a `ValueError` naming line
`i_line + 1`. -/
def instancedParseLine (lineNo : ℕ) (toks : List PyTok) :
    Except LoadError (List ℚ) :=
  if toks.any (fun t => t == PyTok.bad) then
    .error (.lineError lineNo)
  else if (toks.filterMap pyTokValue).length = 3 then
    .ok (toks.filterMap pyTokValue)
  else
    .error (.lineError lineNo)

/-- Loader loop of `InstancedCanopyElement.from_file`: line at list index
`i` is reported as line `i + 1`. -/
def instancedFromFileAux : ℕ → List (List PyTok) → Except LoadError (List (List ℚ))
  | _, [] => .ok []
  | i, l :: rest => do
    let c ← instancedParseLine (i + 1) l
    let cs ← instancedFromFileAux (i + 1) rest
    return c :: cs

/-- Loader `InstancedCanopyElement.from_file`, parsing stage. -/
def instancedFromFile (lines : List (List PyTok)) :
    Except LoadError (List (List ℚ)) :=
  instancedFromFileAux 0 lines

/-- Numeric-token test. -/
def PyTok.isNum : PyTok → Bool
  | .num _ => true
  | .bad => false

/-- Well-formedness of an instance-position line: all tokens numeric and
exactly three of them. -/
def lineOk3 (toks : List PyTok) : Bool :=
  toks.all PyTok.isNum && toks.length == 3

/-!
## DiscreteCanopy and padding
-/

/-- One instanced canopy element (source lines 1241–1285): the shared
canopy element's geometry does not participate in padding, which rewrites
only the instance positions; so only those are modelled. -/
structure InstancedElement where
  instance_positions : List Vec3
deriving DecidableEq, Repr

/-- Aggregate `DiscreteCanopy` (source lines 1463–1504).  The `size` field
comes from the `Canopy` base class in `_core.py`, which is not among the
sources.  Modelled from the spec: `size` is a 3-vector (footprint width ×
depth × height). -/
structure DiscreteCanopy where
  size : Vec3
  instanced_canopy_elements : List InstancedElement
deriving DecidableEq, Repr

/-- Offset factors `-padding, ..., padding` (source line 1594:
`np.array(list(range(-padding, padding + 1)))`). -/
def paddingFactors (padding : ℕ) : List ℤ :=
  (List.range (2 * padding + 1)).map (fun (k : ℕ) => (k : ℤ) - (padding : ℤ))

/-- Offset-factor pairs in the order of
`itertools.product(padding_factors, padding_factors)` (source line 1608):
the first component varies slowest. -/
def paddingPairs (padding : ℕ) : List (ℤ × ℤ) :=
  (paddingFactors padding).flatMap
    (fun xf => (paddingFactors padding).map (fun yf => (xf, yf)))

/-- Method `DiscreteCanopy.padded` (source lines 1570–1629), restricted to
non-negative padding (a negative value raises `ValueError`).  For
`padding == 0` the method returns `self`.  Otherwise, on a deep copy, each
element's instance-position array is rebuilt: the `k`-th pair
`(x_offset_factor, y_offset_factor)` of the offset-pair enumeration fills
the row block `[k*n, (k+1)*n)` with the original positions translated by
`(x_size*x_offset_factor, y_size*y_offset_factor, 0)` — i.e. the blocks
are concatenated in `k` order; finally `size[0:2]` is scaled by
`2*padding + 1`. -/
def DiscreteCanopy.padded (c : DiscreteCanopy) (padding : ℕ) : DiscreteCanopy :=
  if padding = 0 then c
  else
    { size := ⟨c.size.x * ((2 * padding + 1 : ℕ) : ℚ),
               c.size.y * ((2 * padding + 1 : ℕ) : ℚ),
               c.size.z⟩,
      instanced_canopy_elements := c.instanced_canopy_elements.map (fun elem =>
        ⟨(paddingPairs padding).flatMap (fun fp =>
          elem.instance_positions.map (fun pos =>
            ⟨pos.x + c.size.x * (fp.1 : ℚ),
             pos.y + c.size.y * (fp.2 : ℚ),
             pos.z⟩))⟩) }

/-!
## Theorems
-/

/-- C3 — the `l_horizontal` resolution formula of the source is *not* the
algebraic inverse of `n_leaves = lai * (l_horizontal / leaf_radius)^2 / π`:
with `n_leaves = 100`, `leaf_radius = 1`, `lai = 1`, the source resolves
`l_horizontal = π * 1^2 * 100 / 1 = 100π`, and substituting this value back
into the `n_leaves` relation yields `int(1 * (100π)^2 / π) = 31415 ≠ 100`.
The other three resolution properties (`n_leaves`, `lai`, `leaf_radius`)
are mutual inverses of that relation, and `l_horizontal` is a length field
while the formula produces an area, so the missing square root is a slip in
the code. -/
theorem C3_l_horizontal_not_inverse :
    cuboidNLeaves 1 1 (cuboidLHorizontal 1 100 1) = 31415 ∧
      cuboidNLeaves 1 1 (cuboidLHorizontal 1 100 1) ≠ 100 := by
  constructor
  · norm_num [cuboidNLeaves, cuboidLHorizontal, pyInt, npPi]
  · norm_num [cuboidNLeaves, cuboidLHorizontal, pyInt, npPi]

/-- C6 — for a consistent cuboid parameter set `{n_leaves, leaf_radius,
l_horizontal, lai}` (consistent meaning the supplied values satisfy the
defining relation `lai * (l_horizontal / leaf_radius)^2 / π = n_leaves`
exactly), re-deriving `lai` from `{n_leaves, leaf_radius, l_horizontal}`
via the source's `lai` property reproduces the supplied `lai` exactly
(hence a fortiori within floating tolerance). -/
theorem C6_lai_round_trip (n : ℤ) (lai leaf_radius l_horizontal : ℚ)
    (hr : leaf_radius ≠ 0) (hl : l_horizontal ≠ 0)
    (hcons : lai * (l_horizontal / leaf_radius) ^ 2 / npPi = (n : ℚ)) :
    cuboidLai leaf_radius l_horizontal n = lai := by
  have hpi : npPi ≠ 0 := by norm_num [npPi]
  have h1 : (leaf_radius / l_horizontal) ^ 2 * (l_horizontal / leaf_radius) ^ 2 = 1 := by
    field_simp
  unfold cuboidLai
  rw [← hcons]
  calc npPi * (leaf_radius / l_horizontal) ^ 2 *
        (lai * (l_horizontal / leaf_radius) ^ 2 / npPi)
      = lai * ((leaf_radius / l_horizontal) ^ 2 * (l_horizontal / leaf_radius) ^ 2) *
        (npPi / npPi) := by ring
    _ = lai := by rw [h1, div_self hpi]; ring

/-- Witness for C6: the consistent set `n = 1`, `lai = npPi`,
`leaf_radius = 1`, `l_horizontal = 1`. -/
theorem C6_lai_round_trip_witness :
    cuboidLai 1 1 1 = npPi :=
  C6_lai_round_trip 1 npPi 1 1 (by norm_num) (by norm_num) (by norm_num [npPi])

/-- Characterisation of the overlap test at the `Prop` level. -/
lemma AABB.overlaps_eq_true_iff (a b : AABB) :
    a.overlaps b = true ↔
      ((a.xlo < b.xhi ∧ b.xlo < a.xhi) ∧
        (a.ylo < b.yhi ∧ b.ylo < a.yhi) ∧
        (a.zlo < b.zhi ∧ b.zlo < a.zhi)) := by
  simp [AABB.overlaps]
  tauto

/-- Symmetry of the overlap test. -/
lemma AABB.overlaps_symm (a b : AABB) : a.overlaps b = b.overlaps a := by
  rcases h : b.overlaps a with _ | _
  · rw [Bool.eq_false_iff]
    intro h'
    rw [AABB.overlaps_eq_true_iff] at h'
    rw [Bool.eq_false_iff] at h
    exact h (by rw [AABB.overlaps_eq_true_iff]; tauto)
  · rw [AABB.overlaps_eq_true_iff] at h ⊢
    tauto

/-- An accepted non-first candidate does not overlap the tree it was
tested against. -/
lemma tryPlaceLeaf_not_overlap (l_horizontal l_vertical leaf_radius : ℚ)
    (tree : List AABB) (rng : ℕ → ℚ × ℚ × ℚ) :
    ∀ (fuel idx : ℕ) (pos : Vec3) (idxNext : ℕ),
      tryPlaceLeaf l_horizontal l_vertical leaf_radius tree rng idx false fuel
        = some (pos, idxNext) →
      treeDoesOverlap tree (leafAABB leaf_radius pos) = false := by
  intro fuel
  induction fuel with
  | zero => intro idx pos idxNext h; simp [tryPlaceLeaf] at h
  | succ n ih =>
    intro idx pos idxNext h
    rw [tryPlaceLeaf] at h
    simp only [if_neg Bool.false_ne_true] at h
    by_cases hov : treeDoesOverlap tree
        (leafAABB leaf_radius (posCandidate l_horizontal l_vertical (rng idx))) = true
    · rw [if_pos hov] at h
      exact ih (idx + 1) pos idxNext h
    · rw [if_neg hov] at h
      have hpos : pos = posCandidate l_horizontal l_vertical (rng idx) := by
        cases h; rfl
      rw [hpos]
      exact Bool.eq_false_iff.mpr hov

/-- Key invariant: if the boxes of `tree` are pairwise non-overlapping
(and the tree is empty when the loop starts at leaf index 0), then a
successful run extends the tree to a pairwise non-overlapping family. -/
lemma placeLoop_pairwise (l_horizontal l_vertical leaf_radius : ℚ)
    (n_attempts : ℕ) (rng : ℕ → ℚ × ℚ × ℚ) :
    ∀ (remaining i : ℕ) (tree : List AABB) (idx : ℕ) (ps : List Vec3),
      placeLoop l_horizontal l_vertical leaf_radius n_attempts rng i remaining
        tree idx = .ok ps →
      List.Pairwise NoOverlap tree →
      (i = 0 → tree = []) →
      List.Pairwise NoOverlap (tree ++ ps.map (leafAABB leaf_radius)) := by
  intro remaining
  induction remaining with
  | zero =>
    intro i tree idx ps h htree _
    rw [placeLoop] at h
    cases h
    simpa using htree
  | succ n ih =>
    intro i tree idx ps h htree hfirst
    rw [placeLoop] at h
    rcases htry : tryPlaceLeaf l_horizontal l_vertical leaf_radius tree rng idx
        (i == 0) n_attempts with _ | ⟨pos, idxNext⟩
    · simp only [htry] at h
      exact (Except.noConfusion h)
    · simp only [htry] at h
      rcases hrec : placeLoop l_horizontal l_vertical leaf_radius n_attempts rng
          (i + 1) n (tree ++ [leafAABB leaf_radius pos]) idxNext with e | ps'
      · rw [hrec] at h
        simp [Except.map] at h
      · rw [hrec] at h
        simp only [Except.map, Except.ok.injEq] at h
        have hps : ps = pos :: ps' := h.symm
        have hnov : ∀ a ∈ tree, NoOverlap a (leafAABB leaf_radius pos) := by
          by_cases hi : i = 0
          · intro a ha
            rw [hfirst hi] at ha
            cases ha
          · have hb : (i == 0) = false := by
              simp [hi]
            rw [hb] at htry
            have := tryPlaceLeaf_not_overlap l_horizontal l_vertical leaf_radius
              tree rng n_attempts idx pos idxNext htry
            intro a ha
            unfold NoOverlap
            simp only [treeDoesOverlap, List.any_eq_false] at this
            exact Bool.eq_false_iff.mpr (this a ha)
        have htree' : List.Pairwise NoOverlap (tree ++ [leafAABB leaf_radius pos]) := by
          rw [List.pairwise_append]
          refine ⟨htree, List.pairwise_singleton _ _, ?_⟩
          intro a ha b hb
          rw [List.mem_singleton] at hb
          rw [hb]
          exact hnov a ha
        have hres := ih (i + 1) (tree ++ [leafAABB leaf_radius pos]) idxNext ps'
          hrec htree' (by omega)
        rw [hps]
        simpa [List.append_assoc] using hres

/-- C4 — whenever collision-avoidance placement succeeds, the
radius-inflated axis-aligned bounding boxes of any two distinct leaves do
not intersect, where two boxes intersect iff they share positive extent
along every axis (the collision predicate used by the placer; boxes may at
most touch along a boundary, a zero-volume contact the strict `aabbtree`
test deems non-overlapping). -/
theorem C4_no_overlap (n_leaves : ℕ) (l_horizontal l_vertical leaf_radius : ℚ)
    (n_attempts : ℕ) (rng : ℕ → ℚ × ℚ × ℚ) (ps : List Vec3) (i j : ℕ)
    (hok : leafCloudPositionsCuboidAvoidOverlap n_leaves l_horizontal l_vertical
      leaf_radius n_attempts rng = .ok ps)
    (hne : i ≠ j) (hi : i < ps.length) (hj : j < ps.length) :
    (leafAABB leaf_radius (ps.getD i ⟨0, 0, 0⟩)).overlaps
      (leafAABB leaf_radius (ps.getD j ⟨0, 0, 0⟩)) = false := by
  have hpw : List.Pairwise NoOverlap (ps.map (leafAABB leaf_radius)) := by
    have := placeLoop_pairwise l_horizontal l_vertical leaf_radius n_attempts rng
      n_leaves 0 [] 0 ps hok List.Pairwise.nil (fun _ => rfl)
    simpa using this
  rw [List.pairwise_iff_get] at hpw
  have hget : ∀ (k : ℕ) (hk : k < ps.length),
      (ps.map (leafAABB leaf_radius)).get ⟨k, by simpa using hk⟩ =
        leafAABB leaf_radius (ps.getD k ⟨0, 0, 0⟩) := by
    intro k hk
    rw [List.get_eq_getElem, List.getElem_map]
    rw [List.getD_eq_getElem ps _ hk]
  rcases Nat.lt_or_ge i j with hij | hij
  · have h2 := hpw ⟨i, by simpa using hi⟩ ⟨j, by simpa using hj⟩
      (by simpa using hij)
    unfold NoOverlap at h2
    rw [hget i hi, hget j hj] at h2
    exact h2
  · have hji : j < i := by omega
    have h2 := hpw ⟨j, by simpa using hj⟩ ⟨i, by simpa using hi⟩
      (by simpa using hji)
    unfold NoOverlap at h2
    rw [hget j hj, hget i hi] at h2
    rw [AABB.overlaps_symm]
    exact h2

/-- Witness for C4: two leaves placed with radius `1/100` in a
`2 × 2 × 1` cuboid, from draws that put them in opposite corners. -/
theorem C4_no_overlap_witness :
    leafCloudPositionsCuboidAvoidOverlap 2 2 1 (1/100) 3
        (fun k => if k = 0 then (0, 0, 0) else (3/4, 3/4, 3/4))
      = .ok [⟨-1, -1, 0⟩, ⟨1/2, 1/2, 3/4⟩] ∧
    (leafAABB (1/100) ((([⟨-1, -1, 0⟩, ⟨1/2, 1/2, 3/4⟩] : List Vec3).getD 0
        ⟨0, 0, 0⟩))).overlaps
      (leafAABB (1/100) ((([⟨-1, -1, 0⟩, ⟨1/2, 1/2, 3/4⟩] : List Vec3).getD 1
        ⟨0, 0, 0⟩))) = false := by
  have hok : leafCloudPositionsCuboidAvoidOverlap 2 2 1 (1/100) 3
      (fun k => if k = 0 then (0, 0, 0) else (3/4, 3/4, 3/4))
      = .ok [⟨-1, -1, 0⟩, ⟨1/2, 1/2, 3/4⟩] := by
    norm_num [leafCloudPositionsCuboidAvoidOverlap, placeLoop, tryPlaceLeaf,
      posCandidate, leafAABB, treeDoesOverlap, AABB.overlaps, Except.map]
  exact ⟨hok, C4_no_overlap 2 2 1 (1/100) 3 _ _ 0 1 hok (by omega) (by decide)
    (by decide)⟩

/-- Advance of the leaf index: `placeSteps` adds one per step. -/
lemma placeSteps_leafIdx (l_horizontal l_vertical leaf_radius : ℚ)
    (n_attempts : ℕ) (rng : ℕ → ℚ × ℚ × ℚ) :
    ∀ (k : ℕ) (s s' : PlaceState),
      placeSteps l_horizontal l_vertical leaf_radius n_attempts rng k s = some s' →
      s'.leafIdx = s.leafIdx + k := by
  intro k
  induction k with
  | zero =>
    intro s s' h
    rw [placeSteps] at h
    cases h
    omega
  | succ m ih =>
    intro s s' h
    rw [placeSteps] at h
    rcases hstep : placeStep l_horizontal l_vertical leaf_radius n_attempts rng s
        with _ | s1
    · rw [hstep] at h
      exact (Option.noConfusion h)
    · rw [hstep] at h
      simp only [Option.bind] at h
      have h1 : s1.leafIdx = s.leafIdx + 1 := by
        rcases htry : tryPlaceLeaf l_horizontal l_vertical leaf_radius s.tree rng
            s.drawIdx (s.leafIdx == 0) n_attempts with _ | r
        · rw [placeStep, htry] at hstep
          exact (Option.noConfusion hstep)
        · rw [placeStep, htry] at hstep
          cases hstep
          rfl
      have := ih s1 s' h
      omega

/-- Error propagation: if the loop, resumed from the state reached after
`k` placed leaves, fails, then the loop started `k` leaves earlier fails
with the same error — nothing is retried and no partial result is
returned. -/
lemma placeLoop_error_of_steps (l_horizontal l_vertical leaf_radius : ℚ)
    (n_attempts : ℕ) (rng : ℕ → ℚ × ℚ × ℚ) :
    ∀ (k : ℕ) (s s' : PlaceState) (n : ℕ) (e : String),
      placeSteps l_horizontal l_vertical leaf_radius n_attempts rng k s = some s' →
      placeLoop l_horizontal l_vertical leaf_radius n_attempts rng s'.leafIdx n
        s'.tree s'.drawIdx = .error e →
      placeLoop l_horizontal l_vertical leaf_radius n_attempts rng s.leafIdx
        (k + n) s.tree s.drawIdx = .error e := by
  intro k
  induction k with
  | zero =>
    intro s s' n e hsteps herr
    rw [placeSteps] at hsteps
    cases hsteps
    simpa using herr
  | succ m ih =>
    intro s s' n e hsteps herr
    rw [placeSteps] at hsteps
    rcases hstep : placeStep l_horizontal l_vertical leaf_radius n_attempts rng s
        with _ | s1
    · rw [hstep] at hsteps
      exact (Option.noConfusion hsteps)
    · rw [hstep] at hsteps
      simp only [Option.bind] at hsteps
      rcases htry : tryPlaceLeaf l_horizontal l_vertical leaf_radius s.tree rng
          s.drawIdx (s.leafIdx == 0) n_attempts with _ | r
      · rw [placeStep, htry] at hstep
        exact (Option.noConfusion hstep)
      · rw [placeStep, htry] at hstep
        simp only [Option.map, Option.some.injEq] at hstep
        have hadd : m + 1 + n = (m + n) + 1 := by omega
        rw [hadd, placeLoop, htry]
        have hrec := ih s1 s' n e hsteps herr
        rw [← hstep] at hrec
        rcases r with ⟨pos, idxNext⟩
        simp only at hrec
        simp only [hrec, Except.map]

/-- Exhaustion of the attempt budget: a non-first leaf whose candidates
all collide with the tree makes the inner loop return `none`. -/
lemma tryPlaceLeaf_exhausted (l_horizontal l_vertical leaf_radius : ℚ)
    (tree : List AABB) (rng : ℕ → ℚ × ℚ × ℚ) :
    ∀ (fuel idx : ℕ),
      (∀ t, t < fuel → treeDoesOverlap tree
        (leafAABB leaf_radius (posCandidate l_horizontal l_vertical
          (rng (idx + t)))) = true) →
      tryPlaceLeaf l_horizontal l_vertical leaf_radius tree rng idx false fuel
        = none := by
  intro fuel
  induction fuel with
  | zero => intro idx _; rfl
  | succ m ih =>
    intro idx h
    rw [tryPlaceLeaf]
    simp only [if_neg Bool.false_ne_true]
    have h0 := h 0 (by omega)
    rw [Nat.add_zero] at h0
    rw [if_pos h0]
    refine ih (idx + 1) ?_
    intro t ht
    have := h (t + 1) (by omega)
    rw [show idx + 1 + t = idx + (t + 1) by omega]
    exact this

/-- C5 — if, at some point of a collision-avoidance run (a state actually
reached after placing the first `k ≥ 1` leaves), every one of the
`n_attempts` candidate draws for the next leaf is rejected because its
inflated bounding box overlaps an already placed one, then the whole
placement operation returns the "canopy might be too dense" error: the
failure is fatal, nothing is retried, and no partial position list is
returned. -/
theorem C5_exhaustion_fatal (l_horizontal l_vertical leaf_radius : ℚ)
    (n_attempts : ℕ) (rng : ℕ → ℚ × ℚ × ℚ) (n_leaves k : ℕ) (s : PlaceState)
    (hrun : placeSteps l_horizontal l_vertical leaf_radius n_attempts rng k
      ⟨0, [], 0⟩ = some s)
    (hk1 : 1 ≤ k) (hk : k < n_leaves)
    (hexh : ∀ t, t < n_attempts → treeDoesOverlap s.tree
      (leafAABB leaf_radius (posCandidate l_horizontal l_vertical
        (rng (s.drawIdx + t)))) = true) :
    leafCloudPositionsCuboidAvoidOverlap n_leaves l_horizontal l_vertical
        leaf_radius n_attempts rng
      = .error "unable to place all leaves: the specified canopy might be too dense" := by
  have hidx : s.leafIdx = k := by
    have := placeSteps_leafIdx l_horizontal l_vertical leaf_radius n_attempts rng
      k ⟨0, [], 0⟩ s hrun
    simpa using this
  have hne : (s.leafIdx == 0) = false := by
    simp [hidx]
    omega
  have htry : tryPlaceLeaf l_horizontal l_vertical leaf_radius s.tree rng
      s.drawIdx (s.leafIdx == 0) n_attempts = none := by
    rw [hne]
    exact tryPlaceLeaf_exhausted l_horizontal l_vertical leaf_radius s.tree rng
      n_attempts s.drawIdx hexh
  obtain ⟨m, hm⟩ : ∃ m, n_leaves - k = m + 1 := ⟨n_leaves - k - 1, by omega⟩
  have herr : placeLoop l_horizontal l_vertical leaf_radius n_attempts rng
      s.leafIdx (n_leaves - k) s.tree s.drawIdx
      = .error "unable to place all leaves: the specified canopy might be too dense" := by
    rw [hm, placeLoop, htry]
  have := placeLoop_error_of_steps l_horizontal l_vertical leaf_radius n_attempts
    rng k ⟨0, [], 0⟩ s (n_leaves - k) _ hrun herr
  rw [show k + (n_leaves - k) = n_leaves by omega] at this
  simpa [leafCloudPositionsCuboidAvoidOverlap] using this

/-- Witness for C5: two leaves of radius `2` in a `2 × 2 × 1` cuboid with
two attempts per leaf; every candidate box for the second leaf overlaps
the first leaf's box, so the run fails with the source's error message. -/
theorem C5_exhaustion_fatal_witness :
    leafCloudPositionsCuboidAvoidOverlap 2 2 1 2 2 (fun _ => (1/2, 1/2, 1/2))
      = .error "unable to place all leaves: the specified canopy might be too dense" := by
  refine C5_exhaustion_fatal 2 1 2 2 (fun _ => (1/2, 1/2, 1/2)) 2 1
    ⟨1, [leafAABB 2 ⟨0, 0, 1/2⟩], 1⟩ ?_ (by omega) (by omega) ?_
  · norm_num [placeSteps, placeStep, tryPlaceLeaf, posCandidate, Option.bind]
  · intro t ht
    interval_cases t <;>
      norm_num [treeDoesOverlap, AABB.overlaps, leafAABB, posCandidate]

/-- C10 — the first leaf (index 0) is accepted on its first candidate draw
with no overlap check (whatever the tree), and consequently, for
`n_leaves = 1` and any `n_attempts ≥ 1`, the placement always succeeds
with that single position — the exhaustion error branch is unreachable for
every leaf radius and cuboid extent. -/
theorem C10_first_leaf_unchecked (l_horizontal l_vertical leaf_radius : ℚ)
    (n_attempts : ℕ) (rng : ℕ → ℚ × ℚ × ℚ) (tree : List AABB) (idx : ℕ)
    (h : 1 ≤ n_attempts) :
    tryPlaceLeaf l_horizontal l_vertical leaf_radius tree rng idx true n_attempts
        = some (posCandidate l_horizontal l_vertical (rng idx), idx + 1) ∧
    leafCloudPositionsCuboidAvoidOverlap 1 l_horizontal l_vertical leaf_radius
        n_attempts rng
      = .ok [posCandidate l_horizontal l_vertical (rng 0)] := by
  obtain ⟨fuel, rfl⟩ : ∃ fuel, n_attempts = fuel + 1 := ⟨n_attempts - 1, by omega⟩
  have h1 : ∀ (tr : List AABB) (j : ℕ),
      tryPlaceLeaf l_horizontal l_vertical leaf_radius tr rng j true (fuel + 1)
        = some (posCandidate l_horizontal l_vertical (rng j), j + 1) := by
    intro tr j
    rw [tryPlaceLeaf]
    simp
  refine ⟨h1 tree idx, ?_⟩
  have hdef : leafCloudPositionsCuboidAvoidOverlap 1 l_horizontal l_vertical
      leaf_radius (fuel + 1) rng
      = placeLoop l_horizontal l_vertical leaf_radius (fuel + 1) rng 0 (0 + 1)
          [] 0 := rfl
  rw [hdef, placeLoop]
  rw [show ((0 : ℕ) == 0) = true by rfl, h1 [] 0]
  rfl

/-- Witness for C10: one leaf of radius `5` in a `3 × 3 × 2` cuboid with a
single attempt allowed; the leaf is placed at the first draw's position. -/
theorem C10_first_leaf_unchecked_witness :
    tryPlaceLeaf 3 2 5 [] (fun _ => (0, 0, 0)) 0 true 1
        = some (posCandidate 3 2 (0, 0, 0), 1) ∧
    leafCloudPositionsCuboidAvoidOverlap 1 3 2 5 1 (fun _ => (0, 0, 0))
      = .ok [posCandidate 3 2 (0, 0, 0)] :=
  C10_first_leaf_unchecked 3 2 5 1 (fun _ => (0, 0, 0)) [] 0 (by omega)

/-- C8 — translation behaviour of `LeafCloud.translated`: a 3-vector is
broadcast-added to every leaf position, leaving every other field (id,
orientations, radii, optical properties) unchanged and never mutating the
original (the embedding is functional, mirroring `attr.evolve`'s
copy-and-replace semantics); a matching-shape `(N, 3)` array is added
element-wise; a mismatched `(M, 3)` array raises the shape `ValueError`. -/
theorem C8_translated (lc : LeafCloud) (v : Vec3) (vs : List Vec3) :
    lc.translated (.inl v)
        = .ok { lc with leaf_positions := lc.leaf_positions.map (fun p => p.add v) } ∧
    (∀ k, k < lc.leaf_positions.length →
      (lc.leaf_positions.map (fun p => p.add v)).getD k ⟨0, 0, 0⟩
        = (lc.leaf_positions.getD k ⟨0, 0, 0⟩).add v) ∧
    (vs.length = lc.leaf_positions.length →
      lc.translated (.inr vs)
          = .ok { lc with
              leaf_positions := List.zipWith Vec3.add lc.leaf_positions vs } ∧
      ∀ k, k < lc.leaf_positions.length →
        (List.zipWith Vec3.add lc.leaf_positions vs).getD k ⟨0, 0, 0⟩
          = (lc.leaf_positions.getD k ⟨0, 0, 0⟩).add (vs.getD k ⟨0, 0, 0⟩)) ∧
    (vs.length ≠ lc.leaf_positions.length →
      lc.translated (.inr vs)
        = .error "shapes xyz and self.leaf_positions do not match") := by
  refine ⟨rfl, ?_, ?_, ?_⟩
  · intro k hk
    rw [List.getD_eq_getElem _ _ (by simpa using hk),
      List.getD_eq_getElem _ _ hk, List.getElem_map]
  · intro hlen
    constructor
    · simp [LeafCloud.translated, if_pos hlen]
    · intro k hk
      have hk' : k < (List.zipWith Vec3.add lc.leaf_positions vs).length := by
        simp [List.length_zipWith]
        omega
      rw [List.getD_eq_getElem _ _ hk', List.getD_eq_getElem _ _ hk,
        List.getD_eq_getElem _ _ (by omega), List.getElem_zipWith]
  · intro hlen
    simp [LeafCloud.translated, if_neg hlen]

/-- Witness for C8: a one-leaf cloud translated by a 3-vector, and the
same cloud given a mismatched two-row array. -/
theorem C8_translated_witness :
    (LeafCloud.mk "leaf_cloud" [⟨1, 2, 3⟩] [⟨0, 0, 1⟩] [1] (1/2) (1/2)).translated
        (.inl ⟨10, 20, 30⟩)
      = .ok (LeafCloud.mk "leaf_cloud" [⟨11, 22, 33⟩] [⟨0, 0, 1⟩] [1] (1/2) (1/2)) ∧
    (LeafCloud.mk "leaf_cloud" [⟨1, 2, 3⟩] [⟨0, 0, 1⟩] [1] (1/2) (1/2)).translated
        (.inr [⟨10, 20, 30⟩, ⟨0, 0, 0⟩])
      = .error "shapes xyz and self.leaf_positions do not match" := by
  have h := C8_translated
    (LeafCloud.mk "leaf_cloud" [⟨1, 2, 3⟩] [⟨0, 0, 1⟩] [1] (1/2) (1/2))
    ⟨10, 20, 30⟩ [⟨10, 20, 30⟩, ⟨0, 0, 0⟩]
  refine ⟨?_, h.2.2.2 (by decide)⟩
  rw [h.1]
  norm_num [Vec3.add]

/-- C2 — the count invariant holds componentwise for the cuboid, cylinder
and cone samplers, the orientation sampler and the radii array: each
yields exactly `n_leaves` rows.  But the sphere generator
(`LeafCloud.sphere`) swaps the arguments of its sampler call
(`_leaf_cloud_positions_sphere(params.radius, params.n_leaves, rng)`
against the signature `(n_leaves, radius, rng)`), so the float radius
reaches `np.empty((n_leaves, 3))` as the row count and the construction
crashes for every input instead of producing a cloud with `n_leaves`
leaves. -/
theorem C2_count_invariant_sphere_broken (n_leaves : ℕ) (nz : ℤ)
    (radius l_horizontal l_vertical leaf_radius : ℚ)
    (rng : ℕ → ℚ × ℚ × ℚ) (thetas phis : ℕ → ℝ) :
    (leafCloudPositionsCuboid n_leaves l_horizontal l_vertical rng).length
        = n_leaves ∧
    (leafCloudPositionsCylinder n_leaves radius l_vertical rng).length
        = n_leaves ∧
    (leafCloudPositionsCone n_leaves radius l_vertical rng).length = n_leaves ∧
    (leafCloudOrientations n_leaves thetas phis).length = n_leaves ∧
    (leafCloudRadii n_leaves leaf_radius).length = n_leaves ∧
    leafCloudSphereLeafPositions nz radius rng = none := by
  refine ⟨by simp [leafCloudPositionsCuboid],
    by simp [leafCloudPositionsCylinder],
    by simp [leafCloudPositionsCone],
    by simp [leafCloudOrientations],
    by simp [leafCloudRadii], ?_⟩
  simp [leafCloudSphereLeafPositions, leafCloudPositionsSphere, npEmptyRows]

/-- C9 — every row of the orientation array has Euclidean norm exactly 1:
whatever reals the inclination and azimuth draws produce, the row
`(sin θ cos φ, sin θ sin φ, cos θ)` satisfies
`sin²θ cos²φ + sin²θ sin²φ + cos²θ = 1`.  (This holds in exact real
arithmetic regardless of the source's degree/radian confusion in `theta`;
in floating point the norm is only approximately 1.) -/
theorem C9_orientation_unit_norm (n_leaves : ℕ) (thetas phis : ℕ → ℝ) (i : ℕ)
    (hi : i < (leafCloudOrientations n_leaves thetas phis).length) :
    Real.sqrt
      (((leafCloudOrientations n_leaves thetas phis).getD i (0, 0, 0)).1 ^ 2 +
       ((leafCloudOrientations n_leaves thetas phis).getD i (0, 0, 0)).2.1 ^ 2 +
       ((leafCloudOrientations n_leaves thetas phis).getD i (0, 0, 0)).2.2 ^ 2)
      = 1 := by
  have hrow : (leafCloudOrientations n_leaves thetas phis).getD i (0, 0, 0)
      = orientationRow (thetas i) (phis i) := by
    have hi' : i < n_leaves := by
      simpa [leafCloudOrientations] using hi
    rw [List.getD_eq_getElem _ _ hi]
    simp [leafCloudOrientations]
  rw [hrow]
  unfold orientationRow
  have key : (Real.sin (thetas i) * Real.cos (phis i)) ^ 2 +
      (Real.sin (thetas i) * Real.sin (phis i)) ^ 2 +
      Real.cos (thetas i) ^ 2 = 1 := by
    have h1 := Real.sin_sq_add_cos_sq (phis i)
    have h2 := Real.sin_sq_add_cos_sq (thetas i)
    linear_combination (Real.sin (thetas i)) ^ 2 * h1 + h2
  simp only
  rw [key, Real.sqrt_one]

/-- Witness for C9: the first row of a one-leaf orientation array with
both draws equal to zero. -/
theorem C9_orientation_unit_norm_witness :
    Real.sqrt
      (((leafCloudOrientations 1 (fun _ => 0) (fun _ => 0)).getD 0 (0, 0, 0)).1 ^ 2 +
       ((leafCloudOrientations 1 (fun _ => 0) (fun _ => 0)).getD 0 (0, 0, 0)).2.1 ^ 2 +
       ((leafCloudOrientations 1 (fun _ => 0) (fun _ => 0)).getD 0 (0, 0, 0)).2.2 ^ 2)
      = 1 :=
  C9_orientation_unit_norm 1 (fun _ => 0) (fun _ => 0) 0
    (by simp [leafCloudOrientations])

/-- C7 counterexample — a line whose last token is not numeric makes
`LeafCloud.from_file` fail with the raw float-conversion `ValueError`,
which carries no line number: it is not an error identifying the offending
line, contradicting the claim for this loader. -/
theorem C7_leaf_cloud_loader_no_line_number :
    leafCloudFromFile [[PyTok.num 1, PyTok.num 0, PyTok.num 0, PyTok.num 0,
        PyTok.num 0, PyTok.num 0, PyTok.bad]]
      = .error LoadError.floatValueError ∧
    ∀ k, LoadError.floatValueError ≠ LoadError.lineError k := by
  constructor
  · rfl
  · intro k h
    cases h

/-- A filterMap over an all-numeric token list keeps every token. -/
lemma filterMap_num_length (toks : List PyTok)
    (h : ∀ t ∈ toks, t.isNum = true) :
    (toks.filterMap pyTokValue).length = toks.length := by
  induction toks with
  | nil => simp
  | cons t rest ih =>
    rcases t with q | _
    · simp only [pyTokValue, List.filterMap_cons, List.length_cons]
      rw [ih (fun u hu => h u (by simp [hu]))]
    · have := h PyTok.bad (by simp)
      simp [PyTok.isNum] at this

/-- A malformed line makes `instancedParseLine` fail with its line
number. -/
lemma instancedParseLine_error (k : ℕ) (toks : List PyTok)
    (h : lineOk3 toks = false) :
    instancedParseLine k toks = .error (.lineError k) := by
  by_cases hany : toks.any (fun t => t == PyTok.bad) = true
  · rw [instancedParseLine, if_pos hany]
  · have hall : ∀ t ∈ toks, t.isNum = true := by
      intro t ht
      rcases t with q | _
      · rfl
      · exact absurd (List.any_eq_true.mpr ⟨PyTok.bad, ht, by decide⟩) hany
    have hlen : toks.length ≠ 3 := by
      intro hc
      rw [lineOk3, List.all_eq_true.mpr hall, Bool.true_and, hc] at h
      simp at h
    rw [instancedParseLine, if_neg hany]
    rw [if_neg (by rw [filterMap_num_length toks hall]; exact hlen)]

/-- A well-formed line makes `instancedParseLine` succeed. -/
lemma instancedParseLine_ok (k : ℕ) (toks : List PyTok)
    (h : lineOk3 toks = true) :
    instancedParseLine k toks = .ok (toks.filterMap pyTokValue) := by
  rw [lineOk3, Bool.and_eq_true, List.all_eq_true] at h
  obtain ⟨hall, hlen⟩ := h
  have hany : ¬toks.any (fun t => t == PyTok.bad) = true := by
    intro hc
    rw [List.any_eq_true] at hc
    obtain ⟨t, ht, hbad⟩ := hc
    have := hall t ht
    rcases t with q | _
    · simp at hbad
    · simp [PyTok.isNum] at this
  rw [instancedParseLine, if_neg hany]
  rw [if_pos (by
    rw [filterMap_num_length toks hall]
    exact Nat.eq_of_beq_eq_true (by simpa using hlen))]

/-- Error localisation for the instance-position loader loop, for an
arbitrary starting line offset. -/
lemma instancedFromFileAux_error :
    ∀ (lines : List (List PyTok)) (base i : ℕ),
      i < lines.length →
      (∀ j, j < i → lineOk3 (lines.getD j []) = true) →
      lineOk3 (lines.getD i []) = false →
      instancedFromFileAux base lines = .error (.lineError (base + i + 1)) := by
  intro lines
  induction lines with
  | nil =>
    intro base i hi
    simp at hi
  | cons l rest ih =>
    intro base i hi hwf hbad
    cases i with
    | zero =>
      have herr : instancedParseLine (base + 1) l = .error (.lineError (base + 1)) :=
        instancedParseLine_error (base + 1) l (by simpa using hbad)
      rw [instancedFromFileAux]
      rw [herr]
      rfl
    | succ i' =>
      have hok : lineOk3 l = true := by
        have := hwf 0 (by omega)
        simpa using this
      have hcs := instancedParseLine_ok (base + 1) l hok
      have hrec : instancedFromFileAux (base + 1) rest
          = .error (.lineError (base + 1 + i' + 1)) := by
        refine ih (base + 1) i' (by simpa using hi) ?_ ?_
        · intro j hj
          have := hwf (j + 1) (by omega)
          simpa using this
        · simpa using hbad
      rw [show base + 1 + i' + 1 = base + (i' + 1) + 1 by omega] at hrec
      rw [instancedFromFileAux]
      rw [hcs, hrec]
      rfl

/-- C7 (amended) — the instance-position loader
(`InstancedCanopyElement.from_file`) does raise a parse error identifying
the offending 1-based line number: if the lines before index `i` are
well-formed and line `i` is malformed (a non-numeric token, or a token
count other than 3), loading fails with the error naming line `i + 1`.
The leaf-cloud loader (`LeafCloud.from_file`) does not: it propagates the
raw conversion failure without any line information (see the
counterexample theorem). -/
theorem C7_instanced_loader_line_number (lines : List (List PyTok)) (i : ℕ)
    (hi : i < lines.length)
    (hwf : ∀ j, j < i → lineOk3 (lines.getD j []) = true)
    (hbad : lineOk3 (lines.getD i []) = false) :
    instancedFromFile lines = .error (.lineError (i + 1)) := by
  have := instancedFromFileAux_error lines 0 i hi hwf hbad
  simpa [instancedFromFile] using this

/-- Witness for C7: a good 3-token line followed by a malformed line; the
loader reports line 2. -/
theorem C7_instanced_loader_line_number_witness :
    instancedFromFile [[PyTok.num 0, PyTok.num 0, PyTok.num 0],
        [PyTok.num 1, PyTok.bad]]
      = .error (.lineError 2) :=
  C7_instanced_loader_line_number
    [[PyTok.num 0, PyTok.num 0, PyTok.num 0], [PyTok.num 1, PyTok.bad]] 1
    (by decide)
    (by
      intro j hj
      interval_cases j
      decide)
    (by decide)

/-- Length of a flatMap whose blocks all have length `n`. -/
lemma length_flatMap_const {α β : Type} (ps : List α) (g : α → List β) (n : ℕ)
    (hg : ∀ a, (g a).length = n) : (ps.flatMap g).length = ps.length * n := by
  induction ps with
  | nil => simp
  | cons a t ih =>
    rw [List.flatMap_cons, List.length_append, hg, ih, List.length_cons]
    ring

/-- Indexed access into a flatMap whose blocks all have length `n`: entry
`k*n + m` is entry `m` of block `k`. -/
lemma getD_flatMap_const {α β : Type} (g : α → List β) (n : ℕ) (d : β)
    (hg : ∀ a, (g a).length = n) :
    ∀ (ps : List α) (k m : ℕ), k < ps.length → m < n → ∀ (da : α),
      (ps.flatMap g).getD (k * n + m) d = (g (ps.getD k da)).getD m d := by
  intro ps
  induction ps with
  | nil =>
    intro k m hk
    simp at hk
  | cons a t ih =>
    intro k m hk hm da
    rw [List.flatMap_cons]
    cases k with
    | zero =>
      rw [Nat.zero_mul, Nat.zero_add]
      rw [List.getD_append _ _ _ _ (by rw [hg]; exact hm)]
      rfl
    | succ q =>
      have hlb : (g a).length ≤ (q + 1) * n + m := by
        rw [hg]
        calc n ≤ (q + 1) * n := Nat.le_mul_of_pos_left n (by omega)
          _ ≤ (q + 1) * n + m := Nat.le_add_right _ _
      rw [List.getD_append_right _ _ _ _ hlb]
      rw [hg]
      rw [show (q + 1) * n + m - n = q * n + m by
        have hqn : (q + 1) * n = q * n + n := by ring
        omega]
      have hq : q < t.length := by simpa using hk
      rw [ih q m hq hm da]
      rfl

/-- The offset-factor list has `2p+1` entries. -/
lemma paddingFactors_length (p : ℕ) : (paddingFactors p).length = 2 * p + 1 := by
  rw [paddingFactors, List.length_map, List.length_range]

/-- Defaulted access commutes with map below the length. -/
lemma getD_map_of_lt {α β : Type} (f : α → β) (l : List α) (m : ℕ)
    (hm : m < l.length) (d : β) (da : α) :
    (l.map f).getD m d = f (l.getD m da) := by
  rw [List.getD_eq_getElem (l.map f) d (by simpa using hm),
    List.getD_eq_getElem l da hm, List.getElem_map]

/-- Entry `a` of the offset-factor list is `a - p`. -/
lemma paddingFactors_getD (p a : ℕ) (ha : a < 2 * p + 1) :
    (paddingFactors p).getD a 0 = (a : ℤ) - (p : ℤ) := by
  have hlen : a < (paddingFactors p).length := by
    rw [paddingFactors_length]
    exact ha
  rw [List.getD_eq_getElem (paddingFactors p) 0 hlen]
  simp only [paddingFactors, List.getElem_map, List.getElem_range]

/-- The offset-pair list has `(2p+1)²` entries (counted as a product). -/
lemma paddingPairs_length (p : ℕ) :
    (paddingPairs p).length = (2 * p + 1) * (2 * p + 1) := by
  rw [paddingPairs]
  rw [length_flatMap_const (paddingFactors p)
    (fun xf => (paddingFactors p).map (fun yf => (xf, yf))) (2 * p + 1)
    (fun xf => by rw [List.length_map, paddingFactors_length])]
  rw [paddingFactors_length]

/-- Entry `a*(2p+1) + b` of the offset-pair list is `(a - p, b - p)`: the
first component varies slowest, as with `itertools.product`. -/
lemma paddingPairs_getD (p a b : ℕ) (ha : a < 2 * p + 1) (hb : b < 2 * p + 1) :
    (paddingPairs p).getD (a * (2 * p + 1) + b) (0, 0)
      = ((a : ℤ) - (p : ℤ), (b : ℤ) - (p : ℤ)) := by
  rw [paddingPairs]
  rw [getD_flatMap_const (fun xf => (paddingFactors p).map (fun yf => (xf, yf)))
    (2 * p + 1) ((0, 0) : ℤ × ℤ)
    (fun xf => by rw [List.length_map, paddingFactors_length])
    (paddingFactors p) a b
    (by rw [paddingFactors_length]; exact ha) hb (0 : ℤ)]
  show ((paddingFactors p).map
      (fun yf => ((paddingFactors p).getD a 0, yf))).getD b ((0, 0) : ℤ × ℤ)
    = ((a : ℤ) - (p : ℤ), (b : ℤ) - (p : ℤ))
  rw [getD_map_of_lt (fun yf => ((paddingFactors p).getD a 0, yf))
    (paddingFactors p) b (by rw [paddingFactors_length]; exact hb)
    ((0, 0) : ℤ × ℤ) (0 : ℤ)]
  rw [paddingFactors_getD p a ha, paddingFactors_getD p b hb]

/-- C1 — padding exactness.  For `p ≥ 1`, `c.padded p` scales `size[0]`
and `size[1]` by `2p+1` and leaves `size[2]` unchanged; it keeps one
instanced element per original element; each element's new
instance-position array has exactly `(2p+1)²` times the original rows; and
row `((i+p)*(2p+1) + (j+p))*n + m` — i.e. row `m` of the block of the
offset pair `(i, j) ∈ {-p..p}²`, the pairs enumerated with `i` (the x
factor) varying slowest — is the original row `m` translated by
`(i*size_x, j*size_y, 0)`, so the new array is exactly the claimed
concatenation.  Finally `c.padded 0` is `c` itself. -/
theorem C1_padded_exact (c : DiscreteCanopy) (p : ℕ) (hp : 1 ≤ p) (e : ℕ)
    (he : e < c.instanced_canopy_elements.length) :
    (c.padded p).size
        = ⟨c.size.x * ((2 * p + 1 : ℕ) : ℚ), c.size.y * ((2 * p + 1 : ℕ) : ℚ),
           c.size.z⟩ ∧
    (c.padded p).instanced_canopy_elements.length
        = c.instanced_canopy_elements.length ∧
    ((c.padded p).instanced_canopy_elements.getD e ⟨[]⟩).instance_positions.length
        = (2 * p + 1) ^ 2 *
          (c.instanced_canopy_elements.getD e ⟨[]⟩).instance_positions.length ∧
    (∀ (i j : ℤ) (m : ℕ), -(p : ℤ) ≤ i → i ≤ (p : ℤ) → -(p : ℤ) ≤ j →
      j ≤ (p : ℤ) →
      m < (c.instanced_canopy_elements.getD e ⟨[]⟩).instance_positions.length →
      ((c.padded p).instanced_canopy_elements.getD e ⟨[]⟩).instance_positions.getD
          (((i + (p : ℤ)).toNat * (2 * p + 1) + (j + (p : ℤ)).toNat) *
            (c.instanced_canopy_elements.getD e ⟨[]⟩).instance_positions.length
            + m) ⟨0, 0, 0⟩
        = ⟨((c.instanced_canopy_elements.getD e ⟨[]⟩).instance_positions.getD m
              ⟨0, 0, 0⟩).x + c.size.x * (i : ℚ),
           ((c.instanced_canopy_elements.getD e ⟨[]⟩).instance_positions.getD m
              ⟨0, 0, 0⟩).y + c.size.y * (j : ℚ),
           ((c.instanced_canopy_elements.getD e ⟨[]⟩).instance_positions.getD m
              ⟨0, 0, 0⟩).z⟩) ∧
    c.padded 0 = c := by
  have hne : ¬(p = 0) := by omega
  have helem := getD_map_of_lt
    (fun elem : InstancedElement =>
      (⟨(paddingPairs p).flatMap (fun fp =>
        elem.instance_positions.map (fun pos =>
          (⟨pos.x + c.size.x * (fp.1 : ℚ),
            pos.y + c.size.y * (fp.2 : ℚ), pos.z⟩ : Vec3)))⟩ : InstancedElement))
    c.instanced_canopy_elements e he
    (⟨[]⟩ : InstancedElement) (⟨[]⟩ : InstancedElement)
  have hpos : ((c.padded p).instanced_canopy_elements.getD e
        ⟨[]⟩).instance_positions
      = (paddingPairs p).flatMap (fun fp =>
          (c.instanced_canopy_elements.getD e ⟨[]⟩).instance_positions.map
            (fun pos => (⟨pos.x + c.size.x * (fp.1 : ℚ),
                          pos.y + c.size.y * (fp.2 : ℚ), pos.z⟩ : Vec3))) := by
    simp only [DiscreteCanopy.padded, if_neg hne]
    rw [helem]
  refine ⟨?_, ?_, ?_, ?_, by simp [DiscreteCanopy.padded]⟩
  · simp only [DiscreteCanopy.padded, if_neg hne]
  · simp only [DiscreteCanopy.padded, if_neg hne, List.length_map]
  · rw [hpos]
    rw [length_flatMap_const (paddingPairs p)
      (fun fp => (c.instanced_canopy_elements.getD e ⟨[]⟩).instance_positions.map
        (fun pos => (⟨pos.x + c.size.x * (fp.1 : ℚ),
                      pos.y + c.size.y * (fp.2 : ℚ), pos.z⟩ : Vec3)))
      ((c.instanced_canopy_elements.getD e ⟨[]⟩).instance_positions.length)
      (fun fp => by rw [List.length_map])]
    rw [paddingPairs_length]
    ring
  · intro i j m hi1 hi2 hj1 hj2 hm
    rw [hpos]
    have ha : (i + (p : ℤ)).toNat < 2 * p + 1 := by omega
    have hb : (j + (p : ℤ)).toNat < 2 * p + 1 := by omega
    have hK : (i + (p : ℤ)).toNat * (2 * p + 1) + (j + (p : ℤ)).toNat
        < (paddingPairs p).length := by
      rw [paddingPairs_length]
      calc (i + (p : ℤ)).toNat * (2 * p + 1) + (j + (p : ℤ)).toNat
          < (i + (p : ℤ)).toNat * (2 * p + 1) + (2 * p + 1) := by omega
        _ = ((i + (p : ℤ)).toNat + 1) * (2 * p + 1) := by ring
        _ ≤ (2 * p + 1) * (2 * p + 1) := Nat.mul_le_mul_right _ (by omega)
    rw [getD_flatMap_const
      (fun fp => (c.instanced_canopy_elements.getD e ⟨[]⟩).instance_positions.map
        (fun pos => (⟨pos.x + c.size.x * (fp.1 : ℚ),
                      pos.y + c.size.y * (fp.2 : ℚ), pos.z⟩ : Vec3)))
      ((c.instanced_canopy_elements.getD e ⟨[]⟩).instance_positions.length)
      (⟨0, 0, 0⟩ : Vec3)
      (fun fp => by rw [List.length_map])
      (paddingPairs p)
      ((i + (p : ℤ)).toNat * (2 * p + 1) + (j + (p : ℤ)).toNat) m hK hm
      ((0, 0) : ℤ × ℤ)]
    have hpair : (paddingPairs p).getD
        ((i + (p : ℤ)).toNat * (2 * p + 1) + (j + (p : ℤ)).toNat) (0, 0)
        = (i, j) := by
      rw [paddingPairs_getD p _ _ ha hb]
      rw [Prod.mk.injEq]
      constructor <;> omega
    rw [hpair]
    show ((c.instanced_canopy_elements.getD e ⟨[]⟩).instance_positions.map
        (fun pos => (⟨pos.x + c.size.x * (((i, j).1 : ℤ) : ℚ),
                      pos.y + c.size.y * (((i, j).2 : ℤ) : ℚ),
                      pos.z⟩ : Vec3))).getD m (⟨0, 0, 0⟩ : Vec3)
      = ⟨((c.instanced_canopy_elements.getD e ⟨[]⟩).instance_positions.getD m
            ⟨0, 0, 0⟩).x + c.size.x * (i : ℚ),
         ((c.instanced_canopy_elements.getD e ⟨[]⟩).instance_positions.getD m
            ⟨0, 0, 0⟩).y + c.size.y * (j : ℚ),
         ((c.instanced_canopy_elements.getD e ⟨[]⟩).instance_positions.getD m
            ⟨0, 0, 0⟩).z⟩
    rw [getD_map_of_lt (fun pos : Vec3 => (⟨pos.x + c.size.x * (((i, j).1 : ℤ) : ℚ),
        pos.y + c.size.y * (((i, j).2 : ℤ) : ℚ), pos.z⟩ : Vec3))
      ((c.instanced_canopy_elements.getD e ⟨[]⟩).instance_positions) m hm
      (⟨0, 0, 0⟩ : Vec3) (⟨0, 0, 0⟩ : Vec3)]

/-- Witness for C1: the canopy of size `2 × 3 × 5` with one element and a
single instance at `(1, 1, 1)`, padded once: the size becomes `6 × 9 × 5`,
the element gets `9` instances, row `2` (block of the offset pair
`(-1, 1)`) is `(1, 1, 1)` translated by `(-2, 3, 0)`, and zero padding is
the identity. -/
theorem C1_padded_exact_witness :
    ((DiscreteCanopy.mk ⟨2, 3, 5⟩ [⟨[⟨1, 1, 1⟩]⟩]).padded 1).size = ⟨6, 9, 5⟩ ∧
    (((DiscreteCanopy.mk ⟨2, 3, 5⟩ [⟨[⟨1, 1, 1⟩]⟩]).padded
        1).instanced_canopy_elements.getD 0 ⟨[]⟩).instance_positions.length = 9 ∧
    (((DiscreteCanopy.mk ⟨2, 3, 5⟩ [⟨[⟨1, 1, 1⟩]⟩]).padded
        1).instanced_canopy_elements.getD 0 ⟨[]⟩).instance_positions.getD 2
        ⟨0, 0, 0⟩
      = ⟨-1, 4, 1⟩ ∧
    (DiscreteCanopy.mk ⟨2, 3, 5⟩ [⟨[⟨1, 1, 1⟩]⟩]).padded 0
      = DiscreteCanopy.mk ⟨2, 3, 5⟩ [⟨[⟨1, 1, 1⟩]⟩] := by
  have h := C1_padded_exact (DiscreteCanopy.mk ⟨2, 3, 5⟩ [⟨[⟨1, 1, 1⟩]⟩]) 1
    (by omega) 0 (by decide)
  refine ⟨?_, ?_, ?_, h.2.2.2.2⟩
  · rw [h.1]
    norm_num [Vec3.mk.injEq]
  · rw [h.2.2.1]
    decide
  · have h4 := h.2.2.2.1 (-1) 1 0 (by omega) (by omega) (by omega) (by omega)
      (by decide)
    norm_num [List.getD, Vec3.mk.injEq] at h4 ⊢
    convert h4 using 2
